import Mathlib

/-!
Verification of the tempus time-tracking tool (src/main.rs, src/utils.rs).

The embedding models chrono DateTime<FixedOffset> values as a record of
calendar fields plus a fixed offset in minutes.  Panics in the Rust code
(regex .expect, chrono ymd aborts) are modelled as `none` in `Option`;
the `Result<DateRange, &str>` return value of `parse_date_range` becomes
`Except String DateRange` inside the option.
-/

/-- Model of chrono `DateTime<FixedOffset>`: calendar fields plus the
offset from UTC in minutes.  The program only ever builds whole-second
datetimes (`Local.timestamp(secs, 0)`, `Local.ymd(..).and_hms(..)`), so
no sub-second field is modelled. -/
structure DT where
  year : Nat
  month : Nat
  day : Nat
  hour : Nat
  minute : Nat
  second : Nat
  offset : Int
deriving DecidableEq, Repr

/-- Modelled from the spec: `DateRange` (defined in the times module,
not present under src/) is a pair struct of two `DateTime<FixedOffset>`
bounds, written `DateRange(from, to)`. -/
structure DateRange where
  fst : DT
  snd : DT
deriving DecidableEq, Repr

/-- Leap-year rule of the proleptic Gregorian calendar used by chrono. -/
def is_leap_year (y : Nat) : Bool :=
  y % 4 = 0 && (y % 100 ≠ 0 || y % 400 = 0)

/-- Number of days in month `m` of year `y` (chrono calendar rules). -/
def days_in_month (y m : Nat) : Nat :=
  if m = 2 then (if is_leap_year y then 29 else 28)
  else if m = 4 ∨ m = 6 ∨ m = 9 ∨ m = 11 then 30
  else 31

/-- Whether `Local.ymd(y, m, d)` succeeds in chrono (invalid dates abort
the process). -/
def is_valid_ymd (y m d : Nat) : Bool :=
  1 ≤ m && m ≤ 12 && 1 ≤ d && d ≤ days_in_month y m

/-- Days since 1970-01-01 of the civil date `y-m-d` (standard civil
calendar algorithm; used to give each `DT` its Unix timestamp as chrono
`timestamp()` does). -/
def days_from_civil (y : Int) (m d : Nat) : Int :=
  let y2 : Int := if m ≤ 2 then y - 1 else y
  let era : Int := Int.fdiv y2 400
  let yoe : Int := y2 - era * 400
  let mp : Int := if m > 2 then (m : Int) - 3 else (m : Int) + 9
  let doy : Int := Int.fdiv (153 * mp + 2) 5 + (d : Int) - 1
  let doe : Int := yoe * 365 + Int.fdiv yoe 4 - Int.fdiv yoe 100 + doy
  era * 146097 + doe - 719468

/-- Model of chrono `DateTime::timestamp()`: seconds since the Unix
epoch of the instant the fields denote, at the given offset. -/
def DT.timestamp (t : DT) : Int :=
  days_from_civil t.year t.month t.day * 86400
    + t.hour * 3600 + t.minute * 60 + t.second - t.offset * 60

/-- `get_start_date`: `DateTime::from(Utc.ymd(1970, 1, 1).and_hms(0, 0, 0))`,
the fixed sentinel lower bound. -/
def get_start_date : DT :=
  ⟨1970, 1, 1, 0, 0, 0, 0⟩

/-- `DateTime::from(Local.ymd(y, m, d).and_hms(0, 0, 0))` under a local
timezone of fixed offset `tz` minutes: local midnight of that day. -/
def mk_local_midnight (tz : Int) (y m d : Nat) : DT :=
  ⟨y, m, d, 0, 0, 0, tz⟩

/-- The regex `^(\d{4})-(\d{2})-(\d{2})$` of `get_date_from_arg`,
returning the three numeric captures when the token matches. -/
def date_token_captures : List Char → Option (Nat × Nat × Nat)
  | [y1, y2, y3, y4, s1, m1, m2, s2, d1, d2] =>
    if y1.isDigit ∧ y2.isDigit ∧ y3.isDigit ∧ y4.isDigit ∧ s1 = '-'
        ∧ m1.isDigit ∧ m2.isDigit ∧ s2 = '-' ∧ d1.isDigit ∧ d2.isDigit then
      some (((y1.toNat - 48) * 1000 + (y2.toNat - 48) * 100
               + (y3.toNat - 48) * 10 + (y4.toNat - 48)),
            ((m1.toNat - 48) * 10 + (m2.toNat - 48)),
            ((d1.toNat - 48) * 10 + (d2.toNat - 48)))
    else none
  | _ => none

/-- `get_date_from_arg` (src/utils.rs:104): regex-match the token (the
`.expect` panic on failure is `none`), then build local midnight of the
captured date (the chrono abort on an invalid calendar date is also
`none`). -/
def get_date_from_arg (tz : Int) (s : List Char) : Option DT :=
  match date_token_captures s with
  | some (y, m, d) =>
    if is_valid_ymd y m d then some (mk_local_midnight tz y m d) else none
  | none => none

/-- Rust `str::split("..")`: split on each leftmost non-overlapping
occurrence of the two-dot separator. -/
def splitOnDots : List Char → List (List Char)
  | [] => [[]]
  | [c] => [[c]]
  | c1 :: c2 :: rest =>
    if c1 = '.' ∧ c2 = '.' then [] :: splitOnDots rest
    else
      match splitOnDots (c2 :: rest) with
      | s :: ss => (c1 :: s) :: ss
      | [] => [[c1]]

/-- The branch of `parse_date_range` on the pieces of the split input
(src/utils.rs:132-147).  `none` is a panic inside `get_date_from_arg`;
`Except.error` is the `Err("Invalid date-range provided")` value. -/
def parse_date_range_split (tz : Int) (now : DT) :
    List (List Char) → Option (Except String DateRange)
  | [d0] =>
    (get_date_from_arg tz d0).map (fun d => Except.ok ⟨get_start_date, d⟩)
  | [d0, d1] =>
    match d0, d1 with
    | [], [] => some (Except.error "Invalid date-range provided")
    | [], _ =>
      (get_date_from_arg tz d1).map (fun d => Except.ok ⟨get_start_date, d⟩)
    | _, [] =>
      (get_date_from_arg tz d0).map (fun d => Except.ok ⟨d, now⟩)
    | _, _ =>
      (get_date_from_arg tz d0).bind (fun a =>
        (get_date_from_arg tz d1).map (fun b => Except.ok ⟨a, b⟩))
  | _ => some (Except.error "Invalid date-range provided")

/-- `parse_date_range` (src/utils.rs:126): split the input on the
two-dot separator and dispatch on the pieces.  `tz` is the fixed local
offset in minutes and `now` the value of `Local::now()` at the call. -/
def parse_date_range (tz : Int) (now : DT) (s : List Char) :
    Option (Except String DateRange) :=
  parse_date_range_split tz now (splitOnDots s)

/-- `get_length_hours` (src/utils.rs:72): difference of the two
whole-second Unix timestamps divided by 3600, as an exact (unrounded)
numeric value. -/
def get_length_hours (start finish : DT) : ℚ :=
  ((finish.timestamp - start.timestamp : Int) : ℚ) / 3600

/-- The operation flags of the command line (src/main.rs): whether each
of the four operation switches is present in the invocation. -/
structure ArgMatches where
  hours : Bool
  start : Bool
  times : Bool
  delete : Bool
deriving DecidableEq

/-- The five operations main can dispatch to. -/
inductive Operation where
  | printTotalLogTime
  | printSessionStart
  | printTimes
  | deleteSession
  | doSession
deriving DecidableEq

/-- The dispatch chain of main (src/main.rs:21-31). -/
def select_operation (m : ArgMatches) : Operation :=
  if m.hours then Operation.printTotalLogTime
  else if m.start then Operation.printSessionStart
  else if m.times then Operation.printTimes
  else if m.delete then Operation.deleteSession
  else Operation.doSession

/-- Two-digit zero-padded decimal rendering, as in the fields of the
RFC 3339 output of chrono to_rfc3339. -/
def pad2 (n : Nat) : List Char :=
  [Nat.digitChar (n / 10), Nat.digitChar (n % 10)]

/-- Four-digit zero-padded decimal rendering for the year field. -/
def pad4 (n : Nat) : List Char :=
  [Nat.digitChar (n / 1000), Nat.digitChar (n / 100 % 10),
   Nat.digitChar (n / 10 % 10), Nat.digitChar (n % 10)]

/-- `format_datetime` (src/utils.rs:31), chrono `to_rfc3339` on the
whole-second, minute-offset datetimes the program produces:
YYYY-MM-DDTHH:MM:SS followed by the signed HH:MM offset. -/
def format_datetime (t : DT) : List Char :=
  pad4 t.year ++ '-' :: (pad2 t.month ++ '-' :: (pad2 t.day ++ 'T' ::
    (pad2 t.hour ++ ':' :: (pad2 t.minute ++ ':' :: (pad2 t.second ++
      (if t.offset < 0 then '-' else '+') ::
        (pad2 (t.offset.natAbs / 60) ++ ':' :: pad2 (t.offset.natAbs % 60)))))))

/-- Read one decimal digit. -/
def rdDigit (c : Char) : Option Nat :=
  if c.isDigit then some (c.toNat - 48) else none

/-- Read a two-digit field. -/
def rd2 : List Char → Option (Nat × List Char)
  | c1 :: c2 :: rest => do
    let a ← rdDigit c1
    let b ← rdDigit c2
    pure (10 * a + b, rest)
  | _ => none

/-- Read a four-digit field. -/
def rd4 : List Char → Option (Nat × List Char)
  | c1 :: c2 :: c3 :: c4 :: rest => do
    let a ← rdDigit c1
    let b ← rdDigit c2
    let c ← rdDigit c3
    let d ← rdDigit c4
    pure (1000 * a + 100 * b + 10 * c + d, rest)
  | _ => none

/-- Expect one literal character. -/
def expectC (c : Char) : List Char → Option (List Char)
  | a :: rest => if a = c then some rest else none
  | _ => none

/-- Read the offset sign. -/
def rdSign : List Char → Option (Int × List Char)
  | '+' :: rest => some (1, rest)
  | '-' :: rest => some (-1, rest)
  | _ => none

/-- Read the YYYY-MM-DDT date prefix of the serialized form. -/
def rdDate (s : List Char) : Option (Nat × Nat × Nat × List Char) := do
  let (y, s) ← rd4 s
  let s ← expectC '-' s
  let (mo, s) ← rd2 s
  let s ← expectC '-' s
  let (da, s) ← rd2 s
  let s ← expectC 'T' s
  pure (y, mo, da, s)

/-- Read the HH:MM:SS time-of-day fields. -/
def rdTime (s : List Char) : Option (Nat × Nat × Nat × List Char) := do
  let (hr, s) ← rd2 s
  let s ← expectC ':' s
  let (mi, s) ← rd2 s
  let s ← expectC ':' s
  let (se, s) ← rd2 s
  pure (hr, mi, se, s)

/-- Read the signed HH:MM offset, enforcing the chrono FixedOffset
bound of strictly less than one day. -/
def rdOffset (s : List Char) : Option (Int × List Char) := do
  let (sg, s) ← rdSign s
  let (oh, s) ← rd2 s
  let s ← expectC ':' s
  let (om, s) ← rd2 s
  if om < 60 ∧ oh * 60 + om < 1440 then
    pure (sg * ((oh : Int) * 60 + (om : Int)), s)
  else none

/-- `datetime_from_str` (src/utils.rs:35), chrono `parse_from_rfc3339`
on the fixed-width format above: read each field, then validate the
calendar date and the time-of-day fields. -/
def datetime_from_str (s : List Char) : Option DT := do
  let (y, mo, da, s) ← rdDate s
  let (hr, mi, se, s) ← rdTime s
  let (off, s) ← rdOffset s
  if s = [] ∧ is_valid_ymd y mo da = true ∧ hr < 24 ∧ mi < 60 ∧ se < 60 then
    some ⟨y, mo, da, hr, mi, se, off⟩
  else none

/-- The datetimes representable in the modelled format: a real calendar
date, a four-digit year, a time of day, and an offset below one day. -/
def ValidDT (t : DT) : Prop :=
  is_valid_ymd t.year t.month t.day = true ∧ t.year ≤ 9999 ∧ t.hour < 24
    ∧ t.minute < 60 ∧ t.second < 60 ∧ t.offset.natAbs < 1440

theorem splitOnDots_ne_nil : ∀ l : List Char, splitOnDots l ≠ []
  | [] => by simp [splitOnDots]
  | [c] => by simp [splitOnDots]
  | c1 :: c2 :: rest => by
    have ih := splitOnDots_ne_nil (c2 :: rest)
    by_cases h : c1 = '.' ∧ c2 = '.'
    · simp [splitOnDots, h]
    · simp only [splitOnDots, if_neg h]
      rcases hs : splitOnDots (c2 :: rest) with _ | ⟨s, ss⟩
      · exact absurd hs ih
      · simp

theorem splitOnDots_no_dot : ∀ l : List Char, '.' ∉ l → splitOnDots l = [l]
  | [], _ => by simp [splitOnDots]
  | [c], _ => by simp [splitOnDots]
  | c1 :: c2 :: rest, h => by
    have hc1 : c1 ≠ '.' := by rintro rfl; exact h (List.mem_cons_self _ _)
    have h2 : '.' ∉ c2 :: rest := fun hh => h (List.mem_cons_of_mem _ hh)
    have ih := splitOnDots_no_dot (c2 :: rest) h2
    simp [splitOnDots, hc1, ih]

theorem splitOnDots_append_dots :
    ∀ l1 : List Char, '.' ∉ l1 →
      ∀ l2 : List Char, splitOnDots (l1 ++ '.' :: '.' :: l2) = l1 :: splitOnDots l2
  | [], _, l2 => by simp [splitOnDots]
  | [c], h, l2 => by
    have hc : c ≠ '.' := by rintro rfl; exact h (List.mem_cons_self _ _)
    simp [splitOnDots, hc]
  | c1 :: c2 :: rest, h, l2 => by
    have hc1 : c1 ≠ '.' := by rintro rfl; exact h (List.mem_cons_self _ _)
    have h2 : '.' ∉ c2 :: rest := fun hh => h (List.mem_cons_of_mem _ hh)
    have ih := splitOnDots_append_dots (c2 :: rest) h2 l2
    simp only [List.cons_append] at ih ⊢
    simp [splitOnDots, hc1, ih]

/-- A token accepted by the date regex is nonempty and contains no dot
character (it is four digits, a dash, two digits, a dash, two digits). -/
theorem date_token_captures_shape :
    ∀ (l : List Char) (c : Nat × Nat × Nat),
      date_token_captures l = some c → '.' ∉ l ∧ l ≠ [] := by
  have hdig : ∀ c : Char, c.isDigit = true → c ≠ '.' := by
    intro c hc he
    subst he
    exact absurd hc (by decide)
  intro l c h
  rcases l with _ | ⟨a1, _ | ⟨a2, _ | ⟨a3, _ | ⟨a4, _ | ⟨a5, _ | ⟨a6, _ | ⟨a7,
    _ | ⟨a8, _ | ⟨a9, _ | ⟨a10, _ | ⟨a11, tl⟩⟩⟩⟩⟩⟩⟩⟩⟩⟩⟩
  all_goals try exact Option.noConfusion h
  simp only [date_token_captures] at h
  split at h
  case isFalse => exact Option.noConfusion h
  case isTrue hcond =>
    obtain ⟨h1, h2, h3, h4, h5, h6, h7, h8, h9, h10⟩ := hcond
    refine ⟨?_, by simp⟩
    subst h5 h8
    simp only [List.mem_cons, List.not_mem_nil, or_false]
    push_neg
    exact ⟨fun hh => hdig _ h1 hh.symm, fun hh => hdig _ h2 hh.symm,
      fun hh => hdig _ h3 hh.symm, fun hh => hdig _ h4 hh.symm, by decide,
      fun hh => hdig _ h6 hh.symm, fun hh => hdig _ h7 hh.symm, by decide,
      fun hh => hdig _ h9 hh.symm, fun hh => hdig _ h10 hh.symm⟩

/-- C1 (code bug): the doc comment of parse_date_range promises the token
forms today, YYYY-MM-DD and MM-DD, but get_date_from_arg only matches the
regex for YYYY-MM-DD and panics via .expect on the other two forms, so
only the full form parses; the first two conjuncts show the panic on the
promised today and MM-DD tokens, the third that YYYY-MM-DD still works. -/
theorem today_and_month_day_tokens_panic (tz : Int) (now : DT) :
    parse_date_range tz now ['t', 'o', 'd', 'a', 'y'] = none
    ∧ parse_date_range tz now ['1', '2', '-', '0', '1'] = none
    ∧ parse_date_range tz now
        ['2', '0', '2', '1', '-', '1', '2', '-', '0', '1'] =
        some (Except.ok ⟨get_start_date, mk_local_midnight tz 2021 12 1⟩) :=
  ⟨rfl, rfl, rfl⟩

/-- C2: a valid single-date input with no separator yields the range
from the fixed epoch sentinel (Unix timestamp 0) up to local midnight of
the given day. -/
theorem single_date_range_epoch_to_midnight
    (tz : Int) (now : DT) (s : List Char) (y m d : Nat)
    (hc : date_token_captures s = some (y, m, d))
    (hv : is_valid_ymd y m d = true) :
    parse_date_range tz now s =
      some (Except.ok ⟨get_start_date, mk_local_midnight tz y m d⟩)
    ∧ get_start_date.timestamp = 0 := by
  obtain ⟨hnd, hne⟩ := date_token_captures_shape s _ hc
  refine ⟨?_, by decide⟩
  rw [parse_date_range, splitOnDots_no_dot s hnd]
  simp [parse_date_range_split, get_date_from_arg, hc, hv]

theorem single_date_range_epoch_to_midnight_witness :
    (date_token_captures ['2', '0', '2', '1', '-', '1', '2', '-', '0', '1'] =
        some (2021, 12, 1)
      ∧ is_valid_ymd 2021 12 1 = true)
    ∧ parse_date_range 0 get_start_date
        ['2', '0', '2', '1', '-', '1', '2', '-', '0', '1'] =
        some (Except.ok ⟨get_start_date, mk_local_midnight 0 2021 12 1⟩) :=
  ⟨⟨by decide, by decide⟩,
    (single_date_range_epoch_to_midnight 0 get_start_date _ 2021 12 1
      (by decide) (by decide)).1⟩

/-- C3: a two-date input date1..date2 yields exactly the pair of local
midnights in the order written, with no reordering (the statement has no
ordering hypothesis, so it covers date1 greater than date2 as well). -/
theorem two_date_range_literal_order
    (tz : Int) (now : DT) (s1 s2 : List Char) (y1 m1 d1 y2 m2 d2 : Nat)
    (hc1 : date_token_captures s1 = some (y1, m1, d1))
    (hv1 : is_valid_ymd y1 m1 d1 = true)
    (hc2 : date_token_captures s2 = some (y2, m2, d2))
    (hv2 : is_valid_ymd y2 m2 d2 = true) :
    parse_date_range tz now (s1 ++ '.' :: '.' :: s2) =
      some (Except.ok ⟨mk_local_midnight tz y1 m1 d1,
                       mk_local_midnight tz y2 m2 d2⟩) := by
  obtain ⟨hnd1, hne1⟩ := date_token_captures_shape s1 _ hc1
  obtain ⟨hnd2, hne2⟩ := date_token_captures_shape s2 _ hc2
  rw [parse_date_range, splitOnDots_append_dots s1 hnd1,
    splitOnDots_no_dot s2 hnd2]
  rcases s1 with _ | ⟨c1, t1⟩
  · exact absurd rfl hne1
  rcases s2 with _ | ⟨c2, t2⟩
  · exact absurd rfl hne2
  simp [parse_date_range_split, get_date_from_arg, hc1, hc2, hv1, hv2]

theorem two_date_range_literal_order_witness :
    (date_token_captures ['2', '0', '2', '1', '-', '1', '2', '-', '1', '3'] =
        some (2021, 12, 13)
      ∧ date_token_captures ['2', '0', '2', '1', '-', '1', '2', '-', '0', '1'] =
        some (2021, 12, 1))
    ∧ parse_date_range 0 get_start_date
        (['2', '0', '2', '1', '-', '1', '2', '-', '1', '3'] ++
          '.' :: '.' :: ['2', '0', '2', '1', '-', '1', '2', '-', '0', '1']) =
        some (Except.ok ⟨mk_local_midnight 0 2021 12 13,
                         mk_local_midnight 0 2021 12 1⟩) :=
  ⟨⟨by decide, by decide⟩,
    two_date_range_literal_order 0 get_start_date _ _ 2021 12 13 2021 12 1
      (by decide) (by decide) (by decide) (by decide)⟩

/-- C4: a valid date followed by the two-dot separator yields the range
from local midnight of that date up to the now instant exactly as
sampled (an arbitrary now, midnight or not, is returned unchanged). -/
theorem date_dotdot_range_to_now
    (tz : Int) (now : DT) (s : List Char) (y m d : Nat)
    (hc : date_token_captures s = some (y, m, d))
    (hv : is_valid_ymd y m d = true) :
    parse_date_range tz now (s ++ ['.', '.']) =
      some (Except.ok ⟨mk_local_midnight tz y m d, now⟩) := by
  obtain ⟨hnd, hne⟩ := date_token_captures_shape s _ hc
  rw [parse_date_range,
    show s ++ ['.', '.'] = s ++ '.' :: '.' :: ([] : List Char) from rfl,
    splitOnDots_append_dots s hnd]
  rcases s with _ | ⟨c, t⟩
  · exact absurd rfl hne
  simp [splitOnDots, parse_date_range_split, get_date_from_arg, hc, hv]

theorem date_dotdot_range_to_now_witness :
    (date_token_captures ['2', '0', '2', '1', '-', '1', '2', '-', '0', '1'] =
        some (2021, 12, 1)
      ∧ is_valid_ymd 2021 12 1 = true)
    ∧ parse_date_range 60 ⟨2021, 12, 25, 13, 45, 7, 60⟩
        (['2', '0', '2', '1', '-', '1', '2', '-', '0', '1'] ++ ['.', '.']) =
        some (Except.ok ⟨mk_local_midnight 60 2021 12 1,
                         ⟨2021, 12, 25, 13, 45, 7, 60⟩⟩) :=
  ⟨⟨by decide, by decide⟩,
    date_dotdot_range_to_now 60 ⟨2021, 12, 25, 13, 45, 7, 60⟩ _ 2021 12 1
      (by decide) (by decide)⟩

/-- C5: the bare two-dot input is rejected with the invalid-range error,
and so is any input whose two-dot split has more than two pieces, which
is exactly an input with more than one separator occurrence. -/
theorem double_dot_and_multi_separator_error (tz : Int) (now : DT) :
    parse_date_range tz now ['.', '.'] =
      some (Except.error "Invalid date-range provided")
    ∧ ∀ s : List Char, 3 ≤ (splitOnDots s).length →
        parse_date_range tz now s =
          some (Except.error "Invalid date-range provided") := by
  refine ⟨rfl, ?_⟩
  intro s hs
  rw [parse_date_range]
  rcases hsp : splitOnDots s with _ | ⟨a, _ | ⟨b, _ | ⟨c, tl⟩⟩⟩
  · exact absurd hsp (splitOnDots_ne_nil s)
  · rw [hsp] at hs
    simp at hs
  · rw [hsp] at hs
    simp at hs
  · simp [parse_date_range_split]

theorem double_dot_and_multi_separator_error_witness :
    3 ≤ (splitOnDots
          ['a', '.', '.', 'b', '.', '.', 'c']).length
    ∧ parse_date_range 0 get_start_date
        ['a', '.', '.', 'b', '.', '.', 'c'] =
        some (Except.error "Invalid date-range provided") :=
  ⟨by decide,
    (double_dot_and_multi_separator_error 0 get_start_date).2 _ (by decide)⟩

/-- C6: prefixing a date token with the two-dot separator gives exactly
the same result as the bare token: both denote the range from the epoch
sentinel to that date. -/
theorem leading_dotdot_equiv_single
    (tz : Int) (now : DT) (s : List Char) (y m d : Nat)
    (hc : date_token_captures s = some (y, m, d)) :
    parse_date_range tz now ('.' :: '.' :: s) = parse_date_range tz now s := by
  obtain ⟨hnd, hne⟩ := date_token_captures_shape s _ hc
  rw [parse_date_range, parse_date_range,
    show ('.' :: '.' :: s) = ([] : List Char) ++ '.' :: '.' :: s from rfl,
    splitOnDots_append_dots [] (by simp), splitOnDots_no_dot s hnd]
  rcases s with _ | ⟨c, t⟩
  · exact absurd rfl hne
  simp [parse_date_range_split]

theorem leading_dotdot_equiv_single_witness :
    date_token_captures ['2', '0', '2', '1', '-', '1', '2', '-', '0', '1'] =
      some (2021, 12, 1)
    ∧ parse_date_range 0 get_start_date
        ('.' :: '.' :: ['2', '0', '2', '1', '-', '1', '2', '-', '0', '1']) =
      parse_date_range 0 get_start_date
        ['2', '0', '2', '1', '-', '1', '2', '-', '0', '1'] :=
  ⟨by decide,
    leading_dotdot_equiv_single 0 get_start_date _ 2021 12 1 (by decide)⟩

/-- C10: the token 2021-13-01 passes the syntactic regex check of
get_date_from_arg with captures (2021, 13, 1), yet names no calendar
date, so parse_date_range aborts (none models the chrono panic) instead
of returning the invalid-range error value; and the error value only
ever arises from separator misuse (a split with more than two pieces, or
both pieces empty), never from a bad token. -/
theorem invalid_calendar_token_panics :
    date_token_captures ['2', '0', '2', '1', '-', '1', '3', '-', '0', '1'] =
      some (2021, 13, 1)
    ∧ is_valid_ymd 2021 13 1 = false
    ∧ (∀ (tz : Int) (now : DT),
        parse_date_range tz now
          ['2', '0', '2', '1', '-', '1', '3', '-', '0', '1'] = none)
    ∧ (∀ (tz : Int) (now : DT) (s : List Char) (e : String),
        parse_date_range tz now s = some (Except.error e) →
          3 ≤ (splitOnDots s).length ∨ splitOnDots s = [[], []]) := by
  refine ⟨by decide, by decide, fun tz now => rfl, ?_⟩
  intro tz now s e h
  rw [parse_date_range] at h
  rcases hsp : splitOnDots s with _ | ⟨a, _ | ⟨b, _ | ⟨c, tl⟩⟩⟩
  · exact absurd hsp (splitOnDots_ne_nil s)
  · rw [hsp] at h
    rcases hg : get_date_from_arg tz a with _ | v <;>
      simp [parse_date_range_split, hg] at h
  · rw [hsp] at h
    rcases a with _ | ⟨a0, atl⟩ <;> rcases b with _ | ⟨b0, btl⟩
    · exact Or.inr rfl
    · rcases hg : get_date_from_arg tz (b0 :: btl) with _ | v <;>
        simp [parse_date_range_split, hg] at h
    · rcases hg : get_date_from_arg tz (a0 :: atl) with _ | v <;>
        simp [parse_date_range_split, hg] at h
    · rcases hg1 : get_date_from_arg tz (a0 :: atl) with _ | v1 <;>
        rcases hg2 : get_date_from_arg tz (b0 :: btl) with _ | v2 <;>
        simp [parse_date_range_split, hg1, hg2] at h
  · left
    simp

theorem invalid_calendar_token_panics_witness :
    parse_date_range 0 get_start_date ['.', '.'] =
      some (Except.error "Invalid date-range provided")
    ∧ (3 ≤ (splitOnDots ['.', '.']).length ∨ splitOnDots ['.', '.'] = [[], []]) :=
  ⟨rfl,
    invalid_calendar_token_panics.2.2.2 0 get_start_date ['.', '.']
      "Invalid date-range provided" rfl⟩

/-- C7: the hours value for an interval is the timestamp difference
divided by 3600, exactly: multiplying back by 3600 recovers the whole
second count, so no rounding is applied. -/
theorem length_hours_exact_division (start finish : DT) :
    get_length_hours start finish =
      ((finish.timestamp - start.timestamp : Int) : ℚ) / 3600
    ∧ 3600 * get_length_hours start finish =
      ((finish.timestamp - start.timestamp : Int) : ℚ) := by
  refine ⟨rfl, ?_⟩
  rw [get_length_hours]
  field_simp

/-- C9: exactly one operation is selected, by fixed precedence hours,
then start, then times, then delete, with the toggle-session default
only when no flag is present; each equivalence characterises when its
operation is the selected one. -/
theorem operation_precedence (m : ArgMatches) :
    (select_operation m = Operation.printTotalLogTime ↔ m.hours = true)
    ∧ (select_operation m = Operation.printSessionStart ↔
        m.hours = false ∧ m.start = true)
    ∧ (select_operation m = Operation.printTimes ↔
        m.hours = false ∧ m.start = false ∧ m.times = true)
    ∧ (select_operation m = Operation.deleteSession ↔
        m.hours = false ∧ m.start = false ∧ m.times = false ∧ m.delete = true)
    ∧ (select_operation m = Operation.doSession ↔
        m.hours = false ∧ m.start = false ∧ m.times = false ∧
          m.delete = false) := by
  obtain ⟨h, s, t, d⟩ := m
  cases h <;> cases s <;> cases t <;> cases d <;> decide

theorem rdDigit_digitChar : ∀ k : Nat, k < 10 → rdDigit (Nat.digitChar k) = some k := by
  decide

theorem rd2_pad2 (n : Nat) (h : n < 100) (rest : List Char) :
    rd2 (pad2 n ++ rest) = some (n, rest) := by
  have h1 := rdDigit_digitChar (n / 10) (by omega)
  have h2 := rdDigit_digitChar (n % 10) (by omega)
  simp [pad2, rd2, h1, h2]
  omega

theorem rd2_pad2_nil (n : Nat) (h : n < 100) :
    rd2 (pad2 n) = some (n, []) := by
  have := rd2_pad2 n h []
  simpa using this

theorem rd4_pad4 (n : Nat) (h : n < 10000) (rest : List Char) :
    rd4 (pad4 n ++ rest) = some (n, rest) := by
  have h1 := rdDigit_digitChar (n / 1000) (by omega)
  have h2 := rdDigit_digitChar (n / 100 % 10) (by omega)
  have h3 := rdDigit_digitChar (n / 10 % 10) (by omega)
  have h4 := rdDigit_digitChar (n % 10) (by omega)
  simp [pad4, rd4, h1, h2, h3, h4]
  omega

theorem expectC_cons (c : Char) (rest : List Char) :
    expectC c (c :: rest) = some rest := by
  simp [expectC]

theorem rdDate_pads (y mo da : Nat) (hy : y < 10000) (hmo : mo < 100)
    (hda : da < 100) (rest : List Char) :
    rdDate (pad4 y ++ '-' :: (pad2 mo ++ '-' :: (pad2 da ++ 'T' :: rest))) =
      some (y, mo, da, rest) := by
  simp [rdDate, rd4_pad4 y hy, expectC_cons, rd2_pad2 mo hmo,
    rd2_pad2 da hda]

theorem rdTime_pads (hr mi se : Nat) (hhr : hr < 100) (hmi : mi < 100)
    (hse : se < 100) (rest : List Char) :
    rdTime (pad2 hr ++ ':' :: (pad2 mi ++ ':' :: (pad2 se ++ rest))) =
      some (hr, mi, se, rest) := by
  simp [rdTime, rd2_pad2 hr hhr, expectC_cons, rd2_pad2 mi hmi,
    rd2_pad2 se hse]

theorem rdOffset_pads (o : Int) (ho : o.natAbs < 1440) :
    rdOffset ((if o < 0 then '-' else '+') ::
        (pad2 (o.natAbs / 60) ++ ':' :: pad2 (o.natAbs % 60))) =
      some (o, []) := by
  by_cases hs : o < 0
  · rw [if_pos hs]
    simp [rdOffset, rdSign, rd2_pad2 (o.natAbs / 60) (by omega), expectC_cons,
      rd2_pad2_nil (o.natAbs % 60) (by omega)]
    refine ⟨⟨by omega, by omega⟩, ?_⟩
    simp only [Int.abs_eq_natAbs]
    omega
  · rw [if_neg hs]
    simp [rdOffset, rdSign, rd2_pad2 (o.natAbs / 60) (by omega), expectC_cons,
      rd2_pad2_nil (o.natAbs % 60) (by omega)]
    refine ⟨⟨by omega, by omega⟩, ?_⟩
    simp only [Int.abs_eq_natAbs]
    omega

theorem days_in_month_le (y m : Nat) : days_in_month y m ≤ 31 := by
  unfold days_in_month
  split
  · split <;> omega
  · split <;> omega

theorem is_valid_ymd_iff (y m d : Nat) :
    is_valid_ymd y m d = true ↔
      1 ≤ m ∧ m ≤ 12 ∧ 1 ≤ d ∧ d ≤ days_in_month y m := by
  simp [is_valid_ymd, and_assoc]

/-- C8: a datetime of the kind the program writes to the log (whole
seconds, minute-granularity fixed offset, four-digit year) is recovered
exactly by parsing back its RFC 3339 serialization. -/
theorem rfc3339_roundtrip (t : DT) (hv : ValidDT t) :
    datetime_from_str (format_datetime t) = some t := by
  obtain ⟨y, mo, da, hr, mi, se, o⟩ := t
  obtain ⟨hymd, hy, hhr, hmi, hse, ho⟩ := hv
  dsimp only at hymd hy hhr hmi hse ho
  have hb := (is_valid_ymd_iff y mo da).1 hymd
  have hda : da ≤ 31 := le_trans hb.2.2.2 (days_in_month_le y mo)
  simp [format_datetime, datetime_from_str,
    rdDate_pads y mo da (by omega) (by omega) (by omega),
    rdTime_pads hr mi se (by omega) (by omega) (by omega),
    rdOffset_pads o ho, hymd, hhr, hmi, hse]

theorem rfc3339_roundtrip_witness :
    ValidDT ⟨2021, 12, 1, 9, 30, 15, -300⟩
    ∧ datetime_from_str (format_datetime ⟨2021, 12, 1, 9, 30, 15, -300⟩) =
        some ⟨2021, 12, 1, 9, 30, 15, -300⟩ :=
  ⟨by unfold ValidDT; decide,
    rfc3339_roundtrip ⟨2021, 12, 1, 9, 30, 15, -300⟩ (by unfold ValidDT; decide)⟩
